import Mathlib

/-!
Verification of the motion-planning core of the klipper S-curve branch.

The development shallowly embeds the C sources under `src/` into Lean:
`double` arithmetic that only uses field operations and comparisons is
modelled over `ℚ` (exact), while code that calls `sqrt`, `cbrt` or `exp`
is modelled over `ℝ`.  Struct fields keep their C names; pointer
dereferences become explicit parameters or record copies.
-/

set_option maxHeartbeats 1000000

/-! ### S-curve segments (src/klippy/chelper/scurve.c)

The repository carries three historical variants of `scurve.c`.  The
current variant (third in the file, with `scurve_offset` and a
`total_accel_t` field and no `accel_comp` argument) is embedded with the
plain names; the first variant (whose `scurve_fill` takes an
`accel_comp` argument clamped by `max_accel_comp`) is embedded with an
`_ac` suffix. -/

structure scurve where
  c1 : ℚ
  c2 : ℚ
  c3 : ℚ
  c4 : ℚ
  c5 : ℚ
  c6 : ℚ
  total_accel_t : ℚ
  deriving DecidableEq, Repr

/-- Zero-initialised scurve, as produced by `memset(s, 0, sizeof(*s))`. -/
def scurve_zero : scurve :=
  { c1 := 0, c2 := 0, c3 := 0, c4 := 0, c5 := 0, c6 := 0, total_accel_t := 0 }

/-- Horner evaluation of the position polynomial (`scurve_eval`). -/
def scurve_eval (s : scurve) (time : ℚ) : ℚ :=
  (((((s.c6 * time + s.c5) * time + s.c4) * time + s.c3) * time + s.c2) * time
    + s.c1) * time

/-- Formal derivative of the position polynomial (`scurve_velocity`). -/
def scurve_velocity (s : scurve) (time : ℚ) : ℚ :=
  ((((6 * s.c6 * time + 5 * s.c5) * time + 4 * s.c4) * time + 3 * s.c3) * time
    + 2 * s.c2) * time + s.c1

/-- Coefficient rewrite representing the same polynomial at `t + offset_t`
(`scurve_offset`).  All right-hand sides read the original coefficients,
matching the C update order. -/
def scurve_offset (s : scurve) (offset_t : ℚ) : scurve :=
  { s with
    c1 := s.c1 + ((((6 * s.c6 * offset_t + 5 * s.c5) * offset_t
            + 4 * s.c4) * offset_t + 3 * s.c3) * offset_t + 2 * s.c2) * offset_t
    c2 := s.c2 + (((15 * s.c6 * offset_t + 10 * s.c5) * offset_t
            + 6 * s.c4) * offset_t + 3 * s.c3) * offset_t
    c3 := s.c3 + ((20 * s.c6 * offset_t
            + 10 * s.c5) * offset_t + 4 * s.c4) * offset_t
    c4 := s.c4 + (15 * s.c6 * offset_t + 5 * s.c5) * offset_t
    c5 := s.c5 + 6 * s.c6 * offset_t }

/-- Order-2 coefficients (`scurve_fill_bezier2`, current variant). -/
def scurve_fill_bezier2 (s : scurve) (start_accel_v effective_accel accel_offset_t : ℚ) :
    scurve :=
  { s with
    c2 := (1/2) * effective_accel
    c1 := start_accel_v + effective_accel * accel_offset_t }

/-- Order-4 coefficients (`scurve_fill_bezier4`, current variant). -/
def scurve_fill_bezier4 (s : scurve) (start_accel_v effective_accel
    total_accel_t accel_offset_t : ℚ) : scurve :=
  if total_accel_t = 0 then s
  else
    let inv_accel_t := 1 / total_accel_t
    let accel_div_accel_t := effective_accel * inv_accel_t
    let accel_div_accel_t2 := accel_div_accel_t * inv_accel_t
    scurve_offset
      { s with
        c4 := -(1/2) * accel_div_accel_t2
        c3 := accel_div_accel_t
        c1 := start_accel_v } accel_offset_t

/-- Order-6 coefficients (`scurve_fill_bezier6`, current variant). -/
def scurve_fill_bezier6 (s : scurve) (start_accel_v effective_accel
    total_accel_t accel_offset_t : ℚ) : scurve :=
  if total_accel_t = 0 then s
  else
    let inv_accel_t := 1 / total_accel_t
    let accel_div_accel_t2 := effective_accel * inv_accel_t * inv_accel_t
    let accel_div_accel_t3 := accel_div_accel_t2 * inv_accel_t
    let accel_div_accel_t4 := accel_div_accel_t3 * inv_accel_t
    scurve_offset
      { s with
        c6 := accel_div_accel_t4
        c5 := -3 * accel_div_accel_t3
        c4 := (5/2) * accel_div_accel_t2
        c1 := start_accel_v } accel_offset_t

/-- Dispatch on accel order (`scurve_fill`, current variant: memset to
zero, record `total_accel_t`, then fill by order). -/
def scurve_fill (accel_order : ℤ) (accel_t accel_offset_t total_accel_t
    start_accel_v effective_accel : ℚ) : scurve :=
  let s0 : scurve := { scurve_zero with total_accel_t := total_accel_t }
  if accel_order = 4 then
    scurve_fill_bezier4 s0 start_accel_v effective_accel total_accel_t accel_offset_t
  else if accel_order = 6 then
    scurve_fill_bezier6 s0 start_accel_v effective_accel total_accel_t accel_offset_t
  else
    scurve_fill_bezier2 s0 start_accel_v effective_accel accel_offset_t

/-! First `scurve.c` variant: `scurve_fill` with an acceleration
compensation argument, clamped by `max_accel_comp`. -/

/-- Clamp of the acceleration-compensation term
(`max_accel_comp(accel_comp, accel_t)` = `fmin(accel_comp, accel_t*accel_t*0.159)`). -/
def max_accel_comp (accel_comp accel_t : ℚ) : ℚ :=
  min accel_comp (accel_t * accel_t * (159/1000))

/-- Order-4 fill with compensation (first variant `scurve_fill_bezier4`);
the trailing updates transcribe the inline Horner shift by `accel_offset_t`. -/
def scurve_fill_bezier4_ac (s : scurve) (start_accel_v effective_accel
    total_accel_t accel_offset_t accel_comp : ℚ) : scurve :=
  if total_accel_t = 0 then s
  else
    let inv_accel_t := 1 / total_accel_t
    let accel_div_accel_t := effective_accel * inv_accel_t
    let accel_div_accel_t2 := accel_div_accel_t * inv_accel_t
    let s1 : scurve :=
      { s with
        c4 := -(1/2) * accel_div_accel_t2
        c3 := accel_div_accel_t
        c2 := -6 * accel_div_accel_t2 * accel_comp
        c1 := start_accel_v + 6 * accel_div_accel_t * accel_comp }
    { s1 with
      c1 := s1.c1 + ((4 * s1.c4 * accel_offset_t
              + 3 * s1.c3) * accel_offset_t + 2 * s1.c2) * accel_offset_t
      c2 := s1.c2 + (6 * s1.c4 * accel_offset_t + 3 * s1.c3) * accel_offset_t
      c3 := s1.c3 + 4 * s1.c4 * accel_offset_t }

/-- Order-6 fill with compensation (first variant `scurve_fill_bezier6`). -/
def scurve_fill_bezier6_ac (s : scurve) (start_accel_v effective_accel
    total_accel_t accel_offset_t accel_comp : ℚ) : scurve :=
  if total_accel_t = 0 then s
  else
    let inv_accel_t := 1 / total_accel_t
    let accel_div_accel_t2 := effective_accel * inv_accel_t * inv_accel_t
    let accel_div_accel_t3 := accel_div_accel_t2 * inv_accel_t
    let accel_div_accel_t4 := accel_div_accel_t3 * inv_accel_t
    let s1 : scurve :=
      { s with
        c6 := accel_div_accel_t4
        c5 := -3 * accel_div_accel_t3
        c4 := (5/2) * accel_div_accel_t2 + 30 * accel_div_accel_t4 * accel_comp
        c3 := -60 * accel_div_accel_t3 * accel_comp
        c2 := 30 * accel_div_accel_t2 * accel_comp
        c1 := start_accel_v }
    scurve_offset s1 accel_offset_t

/-- First-variant `scurve_fill`: clamps `accel_comp` through
`max_accel_comp` with the same `0.159 * total_accel_t^2` bound for both
order 4 and order 6. -/
def scurve_fill_ac (accel_order : ℤ) (accel_t accel_offset_t total_accel_t
    start_accel_v effective_accel accel_comp : ℚ) : scurve :=
  if accel_order = 4 then
    scurve_fill_bezier4_ac scurve_zero start_accel_v effective_accel
      total_accel_t accel_offset_t (max_accel_comp accel_comp total_accel_t)
  else if accel_order = 6 then
    scurve_fill_bezier6_ac scurve_zero start_accel_v effective_accel
      total_accel_t accel_offset_t (max_accel_comp accel_comp total_accel_t)
  else
    scurve_fill_bezier2 scurve_zero start_accel_v effective_accel accel_offset_t

example : (scurve_fill_ac 4 1 0 1 0 1 1).c2 = -(954/1000 : ℚ) := by
  norm_num [scurve_fill_ac, scurve_fill_bezier4_ac, max_accel_comp, scurve_zero]

example : scurve_velocity (scurve_fill 2 1 1 1 0 1) 0 = 1 := by
  norm_num [scurve_fill, scurve_fill_bezier2, scurve_velocity, scurve_zero]

/-! ### Properties of scurve_fill -/

lemma scurve_eval_at_zero (s : scurve) : scurve_eval s 0 = 0 := by
  simp [scurve_eval]

lemma scurve_velocity_at_zero (s : scurve) : scurve_velocity s 0 = s.c1 := by
  simp [scurve_velocity]

lemma scurve_offset_at_zero (s : scurve) : scurve_offset s 0 = s := by
  simp [scurve_offset]

lemma max_accel_comp_idem (comp T : ℚ) :
    max_accel_comp (max_accel_comp comp T) T = max_accel_comp comp T := by
  simp [max_accel_comp, min_assoc]

/-- C3 (amended).  For both orders 4 and 6, the compensation value
actually applied by `scurve_fill_ac` is `max_accel_comp accel_comp
total_accel_t = min accel_comp (0.159 * total_accel_t^2)`: filling with
`accel_comp` and filling with the clamped value produce identical
scurves.  The applied value is at most `total_accel_t^2 / 6` and at most
`0.159 * total_accel_t^2`; the order-4 clamp point is `0.159 *
total_accel_t^2`, not `total_accel_t^2 / 6`. -/
theorem scurve_fill_ac_clamps_comp (accel_t accel_offset_t total_accel_t v a comp : ℚ) :
    (scurve_fill_ac 4 accel_t accel_offset_t total_accel_t v a comp
      = scurve_fill_ac 4 accel_t accel_offset_t total_accel_t v a
          (max_accel_comp comp total_accel_t))
    ∧ (scurve_fill_ac 6 accel_t accel_offset_t total_accel_t v a comp
      = scurve_fill_ac 6 accel_t accel_offset_t total_accel_t v a
          (max_accel_comp comp total_accel_t))
    ∧ max_accel_comp comp total_accel_t ≤ total_accel_t ^ 2 / 6
    ∧ max_accel_comp comp total_accel_t ≤ (159/1000) * total_accel_t ^ 2 := by
  refine ⟨?_, ?_, ?_, ?_⟩
  · simp [scurve_fill_ac, max_accel_comp_idem]
  · simp [scurve_fill_ac, max_accel_comp_idem]
  · refine le_trans (min_le_right _ _) ?_
    nlinarith [sq_nonneg total_accel_t]
  · refine le_trans (min_le_right _ _) ?_
    nlinarith [sq_nonneg total_accel_t]

/-- C3 counterexample.  At order 4 with `total_accel_t = 1` and
`accel_comp = 1 > 1/6`, the claim says the clamped value `1/6` is used,
but the code produces a different scurve (its `c2` is `-6 * 0.159`,
not `-6/6`). -/
theorem scurve_fill_ac_order4_clamp_cx :
    (1 : ℚ) > 1 ^ 2 / 6 ∧
    scurve_fill_ac 4 1 0 1 0 1 1
      ≠ scurve_fill_bezier4_ac scurve_zero 0 1 1 0 (1 ^ 2 / 6) := by
  refine ⟨by norm_num, fun h => ?_⟩
  have h2 := congrArg scurve.c2 h
  norm_num [scurve_fill_ac, scurve_fill_bezier4_ac, max_accel_comp, scurve_zero] at h2

/-- C4 (amended).  `scurve_fill` always produces position 0 at local
time 0; when `accel_offset_t = 0` (and `total_accel_t ≠ 0` for orders 4
and 6) the velocity at local time 0 equals `start_accel_v`.  For nonzero
`accel_offset_t` the claim fails (see the counterexample). -/
theorem scurve_fill_t0 (accel_order : ℤ) (accel_t accel_offset_t total_accel_t v a : ℚ)
    (hoff : accel_offset_t = 0)
    (hT : (accel_order = 4 ∨ accel_order = 6) → total_accel_t ≠ 0) :
    (∀ (o : ℤ) (u1 u2 u3 w b : ℚ), scurve_eval (scurve_fill o u1 u2 u3 w b) 0 = 0)
    ∧ scurve_velocity
        (scurve_fill accel_order accel_t accel_offset_t total_accel_t v a) 0 = v := by
  subst hoff
  refine ⟨fun o u1 u2 u3 w b => scurve_eval_at_zero _, ?_⟩
  rw [scurve_velocity_at_zero]
  by_cases h4 : accel_order = 4
  · have hT' := hT (Or.inl h4)
    simp [scurve_fill, h4, scurve_fill_bezier4, hT', scurve_offset_at_zero]
  · by_cases h6 : accel_order = 6
    · have hT' := hT (Or.inr h6)
      simp [scurve_fill, h4, h6, scurve_fill_bezier6, hT', scurve_offset_at_zero]
    · simp [scurve_fill, h4, h6, scurve_fill_bezier2]

/-- Witness for C4 at order 4 with zero offset. -/
theorem scurve_fill_t0_witness :
    ((0:ℚ) = 0) ∧ (((4:ℤ) = 4 ∨ (4:ℤ) = 6) → (1:ℚ) ≠ 0) ∧
      scurve_velocity (scurve_fill 4 1 0 1 5 3) 0 = 5 :=
  ⟨rfl, fun _ => by norm_num,
    (scurve_fill_t0 4 1 0 1 5 3 rfl (fun _ => by norm_num)).2⟩

/-- C4 counterexample.  At order 2 with `accel_offset_t = 1`,
`start_accel_v = 0` and `effective_accel = 1`, the velocity of the
filled scurve at local time 0 is `0 + 1 * 1 = 1`, not `start_accel_v`. -/
theorem scurve_fill_velocity_at_offset_cx :
    ¬ scurve_velocity (scurve_fill 2 1 1 1 0 1) 0 = (0 : ℚ) := by
  norm_num [scurve_fill, scurve_fill_bezier2, scurve_velocity, scurve_zero]

/-! ### Distance-to-time bisection (`scurve_get_time`, current variant)

The C loop `while (high - low > 1e-9)` halves the bracket each
iteration; it is embedded with an explicit iteration budget `fuel`.
Whenever `total_accel_t ≤ 1e-9 * 2^fuel` the budget is not exhausted
before the loop condition turns false, so the embedding computes exactly
what the C loop computes. -/

def bisect_loop (s : scurve) (distance : ℚ) : ℕ → ℚ → ℚ → ℚ
  | 0, low, high => (high + low) / 2
  | n + 1, low, high =>
    if (1:ℚ)/10^9 < high - low then
      if distance < scurve_eval s ((high + low) / 2) then
        bisect_loop s distance n low ((high + low) / 2)
      else
        bisect_loop s distance n ((high + low) / 2) high
    else (high + low) / 2

/-- Inverse (distance to time) lookup on `[0, total_accel_t]`
(`scurve_get_time`, current variant). -/
def scurve_get_time (s : scurve) (distance : ℚ) (fuel : ℕ) : ℚ :=
  if scurve_eval s s.total_accel_t ≤ distance then s.total_accel_t
  else if distance < scurve_eval s 0 then 0
  else bisect_loop s distance fuel 0 s.total_accel_t

lemma bisect_loop_close (s : scurve) (t : ℚ)
    (hmono : ∀ u v, 0 ≤ u → u < v → v ≤ s.total_accel_t →
      scurve_eval s u < scurve_eval s v)
    (ht0 : 0 ≤ t) (ht1 : t ≤ s.total_accel_t) :
    ∀ (n : ℕ) (low high : ℚ), 0 ≤ low → high ≤ s.total_accel_t →
      low ≤ t → t ≤ high → high - low ≤ (1/10^9) * 2 ^ n →
      |bisect_loop s (scurve_eval s t) n low high - t| ≤ 1/10^9 := by
  intro n
  induction n with
  | zero =>
    intro low high _ _ hlt hth hw
    rw [bisect_loop, abs_le]
    norm_num at hw ⊢
    constructor <;> linarith
  | succ n ih =>
    intro low high hl0 hhT hlt hth hw
    rw [pow_succ 2 n] at hw
    rw [bisect_loop]
    split_ifs with hcond hguess
    · -- target below the midpoint value: t lies left of the midpoint
      have htg : t ≤ (high + low) / 2 := by
        by_contra hgt
        push_neg at hgt
        have hg0 : 0 ≤ (high + low) / 2 := by linarith
        exact absurd (hmono _ _ hg0 hgt ht1) (asymm hguess)
      exact ih low ((high + low) / 2) hl0 (by linarith) hlt htg (by linarith)
    · -- midpoint value at most the target: t lies right of the midpoint
      have hgt : (high + low) / 2 ≤ t := by
        by_contra hlt'
        push_neg at hlt'
        have hgT : (high + low) / 2 ≤ s.total_accel_t := by linarith
        exact hguess (hmono _ _ ht0 hlt' hgT)
      exact ih ((high + low) / 2) high (by linarith) hhT hgt hth (by linarith)
    · -- loop condition already false: return the midpoint
      push_neg at hcond
      rw [abs_le]
      norm_num at hcond ⊢
      constructor <;> linarith

/-- C2 (amended).  For every scurve whose position is strictly
increasing on `[0, total_accel_t]`, every `t` in that interval, and a
bisection budget large enough for the C loop to reach its exit
condition, `scurve_get_time (scurve_eval s t)` is within `1e-8` of `t`
(in fact within `1e-9`).  For merely non-decreasing position the claim
fails (see the counterexample). -/
theorem scurve_get_time_round_trip (s : scurve) (fuel : ℕ) (t : ℚ)
    (hmono : ∀ u v, 0 ≤ u → u < v → v ≤ s.total_accel_t →
      scurve_eval s u < scurve_eval s v)
    (hfuel : s.total_accel_t ≤ (1/10^9) * 2 ^ fuel)
    (ht0 : 0 ≤ t) (ht1 : t ≤ s.total_accel_t) :
    |scurve_get_time s (scurve_eval s t) fuel - t| ≤ 1/10^8 := by
  rw [scurve_get_time]
  split_ifs with h1 h2
  · -- eval at the right endpoint already at most the target: t = T
    have htT : t = s.total_accel_t := by
      rcases lt_or_eq_of_le ht1 with hlt | heq
      · exact absurd (hmono t s.total_accel_t ht0 hlt le_rfl) (not_lt_of_le h1)
      · exact heq
    rw [htT, sub_self, abs_zero]
    norm_num
  · -- eval at 0 above the target is impossible for t ≥ 0
    exfalso
    rcases lt_or_eq_of_le ht0 with hlt | heq
    · exact absurd (hmono 0 t le_rfl hlt ht1) (asymm h2)
    · rw [← heq] at h2; exact lt_irrefl _ h2
  · refine le_trans
      (bisect_loop_close s t hmono ht0 ht1 fuel 0 s.total_accel_t le_rfl le_rfl
        ht0 ht1 (by linarith)) (by norm_num)

/-- Unit-velocity scurve `s(t) = t` on `[0, 1]`. -/
def scurve_unit : scurve := { scurve_zero with c1 := 1, total_accel_t := 1 }

/-- Zero scurve with a nonzero time span (constant position). -/
def scurve_flat : scurve := { scurve_zero with total_accel_t := 1 }

/-- Witness for C2 on the unit-velocity scurve at `t = 1/2`. -/
theorem scurve_get_time_round_trip_witness :
    (∀ u v : ℚ, 0 ≤ u → u < v → v ≤ scurve_unit.total_accel_t →
      scurve_eval scurve_unit u < scurve_eval scurve_unit v)
    ∧ scurve_unit.total_accel_t ≤ (1/10^9) * 2 ^ 30
    ∧ (0:ℚ) ≤ 1/2 ∧ (1/2:ℚ) ≤ scurve_unit.total_accel_t
    ∧ |scurve_get_time scurve_unit (scurve_eval scurve_unit (1/2)) 30 - 1/2|
        ≤ 1/10^8 := by
  have hm : ∀ u v : ℚ, 0 ≤ u → u < v → v ≤ scurve_unit.total_accel_t →
      scurve_eval scurve_unit u < scurve_eval scurve_unit v := by
    intro u v _ huv _
    simpa [scurve_eval, scurve_unit, scurve_zero] using huv
  refine ⟨hm, by norm_num [scurve_unit, scurve_zero], by norm_num,
    by norm_num [scurve_unit, scurve_zero], ?_⟩
  exact scurve_get_time_round_trip scurve_unit 30 (1/2) hm
    (by norm_num [scurve_unit, scurve_zero]) (by norm_num)
    (by norm_num [scurve_unit, scurve_zero])

/-- C2 counterexample.  On the constant (hence non-decreasing but not
strictly increasing) scurve with `total_accel_t = 1`, the bisection's
early exit returns `total_accel_t = 1` for the round trip at `t = 1/2`,
which is off by `1/2 > 1e-8`. -/
theorem scurve_get_time_round_trip_cx :
    (∀ u v : ℚ, 0 ≤ u → u ≤ v → v ≤ scurve_flat.total_accel_t →
      scurve_eval scurve_flat u ≤ scurve_eval scurve_flat v)
    ∧ (0:ℚ) ≤ 1/2 ∧ (1/2:ℚ) ≤ scurve_flat.total_accel_t
    ∧ scurve_flat.total_accel_t ≤ (1/10^9) * 2 ^ 30
    ∧ ¬ |scurve_get_time scurve_flat (scurve_eval scurve_flat (1/2)) 30 - 1/2|
          ≤ 1/10^8 := by
  refine ⟨fun u v _ _ _ => ?_, by norm_num, by norm_num [scurve_flat, scurve_zero],
    by norm_num [scurve_flat, scurve_zero], ?_⟩
  · simp [scurve_eval, scurve_flat, scurve_zero]
  · have h1 : scurve_get_time scurve_flat (scurve_eval scurve_flat (1/2)) 30 = 1 := by
      norm_num [scurve_get_time, scurve_eval, scurve_flat, scurve_zero]
    rw [h1, show |(1:ℚ) - 1/2| = 1/2 by norm_num [abs_of_pos]]
    norm_num

/-! ### Trajectory queue (src/unnamed/part_009, `trapq_add_move`)

The queue between the two sentinels is modelled as a list of moves in
insertion order.  A fresh queue's head sentinel is zero-initialised
(`print_time = move_t = 0`); the predecessor `prev` consulted by
`trapq_add_move` is the last queued move, or that sentinel when the
queue is empty. -/

structure coord where
  x : ℚ
  y : ℚ
  z : ℚ
  deriving DecidableEq, Repr

def coord_zero : coord := { x := 0, y := 0, z := 0 }

structure tmove where
  print_time : ℚ
  move_t : ℚ
  start_pos : coord
  axes_r : coord
  s : scurve
  deriving DecidableEq, Repr

/-- Zero-initialised move, as produced by `move_alloc`. -/
def tmove_zero : tmove :=
  { print_time := 0, move_t := 0, start_pos := coord_zero, axes_r := coord_zero
    s := scurve_zero }

def MAX_NULL_MOVE : ℚ := 1

/-- End time of the queue's last element (the head sentinel's end, 0,
when the queue is empty). -/
def queue_end (l : List tmove) : ℚ :=
  (l.getLastD tmove_zero).print_time + (l.getLastD tmove_zero).move_t

/-- `trapq_add_move` from src/unnamed/part_009: fill a time gap before
`m` with a zero-initialised null move carrying `m`'s `start_pos`; the
null move's start is pulled back to `m.print_time - MAX_NULL_MOVE` when
`prev` has `print_time` zero and `m.print_time > MAX_NULL_MOVE`. -/
def trapq_add_move (queue : List tmove) (m : tmove) : List tmove :=
  let prev := queue.getLastD tmove_zero
  if prev.print_time + prev.move_t < m.print_time then
    let null_print_time :=
      if prev.print_time = 0 ∧ MAX_NULL_MOVE < m.print_time then
        m.print_time - MAX_NULL_MOVE
      else prev.print_time + prev.move_t
    queue ++ [{ tmove_zero with
                start_pos := m.start_pos
                print_time := null_print_time
                move_t := m.print_time - null_print_time }, m]
  else
    queue ++ [m]

/-- Run a sequence of `trapq_add_move` insertions on a fresh queue. -/
def trapq_add_moves (ms : List tmove) : List tmove :=
  ms.foldl trapq_add_move []

/-- Adjacent-segment time ordering (`prev.print_time + prev.move_t ≤
next.print_time`). -/
def time_ordered (a b : tmove) : Prop :=
  a.print_time + a.move_t ≤ b.print_time

instance : DecidableRel time_ordered := fun a b =>
  inferInstanceAs (Decidable (_ ≤ _))

/-- Insertion sequences whose moves have positive `print_time` and start
no earlier than the current queue end. -/
def ok_seq : ℚ → List tmove → Prop
  | _, [] => True
  | e, m :: ms =>
    0 < m.print_time ∧ e ≤ m.print_time ∧ ok_seq (m.print_time + m.move_t) ms

lemma getLastD_append_two (l : List tmove) (a b d : tmove) :
    (l ++ [a, b]).getLastD d = b := by
  rw [show l ++ [a, b] = (l ++ [a]) ++ [b] by simp]
  simp [List.getLastD_concat]

lemma prev_eq_of_getLast? (l : List tmove) (x : tmove)
    (h : l.getLast? = some x) : l.getLastD tmove_zero = x := by
  simp [List.getLastD_eq_getLast?, h]

lemma trapq_add_move_step (l : List tmove) (m : tmove)
    (hlast : l ≠ [] → 0 < (l.getLastD tmove_zero).print_time)
    (hpos : 0 < m.print_time) (hle : queue_end l ≤ m.print_time)
    (hch : List.Chain' time_ordered l) :
    List.Chain' time_ordered (trapq_add_move l m)
    ∧ (trapq_add_move l m).getLastD tmove_zero = m := by
  rw [trapq_add_move]
  split_ifs with hgap hcap
  · -- gap, capped null move: only possible on an empty queue
    have hl : l = [] := by
      by_contra hne
      exact absurd hcap.1 (ne_of_gt (hlast hne))
    subst hl
    refine ⟨?_, by simp⟩
    simp only [List.nil_append]
    refine List.chain'_cons.2 ⟨?_, List.chain'_singleton _⟩
    simp only [time_ordered]
    linarith
  · -- gap, uncapped null move starting exactly at the previous end
    constructor
    · refine (List.chain'_append).2 ⟨hch, ?_, ?_⟩
      · refine List.chain'_cons.2 ⟨?_, List.chain'_singleton _⟩
        simp only [time_ordered]
        linarith
      · intro x hx y hy
        simp only [List.head?_cons, Option.mem_def, Option.some.injEq] at hy
        subst hy
        rw [Option.mem_def] at hx
        simp [time_ordered, List.getLastD_eq_getLast?, hx]
    · exact getLastD_append_two l _ m tmove_zero
  · -- no gap: append directly
    constructor
    · refine (List.chain'_append).2 ⟨hch, List.chain'_singleton _, ?_⟩
      intro x hx y hy
      simp only [List.head?_cons, Option.mem_def, Option.some.injEq] at hy
      subst hy
      simp only [time_ordered]
      have := prev_eq_of_getLast? l x hx
      rw [queue_end, this] at hle
      exact hle
    · simp [List.getLastD_concat]

lemma trapq_add_moves_aux (ms : List tmove) :
    ∀ l : List tmove, List.Chain' time_ordered l →
      (l ≠ [] → 0 < (l.getLastD tmove_zero).print_time) →
      ok_seq (queue_end l) ms →
      List.Chain' time_ordered (List.foldl trapq_add_move l ms) := by
  induction ms with
  | nil => intro l hch _ _; simpa using hch
  | cons m ms ih =>
    intro l hch hlast hseq
    obtain ⟨hpos, hle, hrest⟩ := hseq
    obtain ⟨hch', hlast'⟩ := trapq_add_move_step l m hlast hpos hle hch
    rw [List.foldl_cons]
    refine ih (trapq_add_move l m) hch' ?_ ?_
    · intro _; rw [hlast']; exact hpos
    · rw [queue_end, hlast']; exact hrest

/-- C1 (amended).  For every insertion sequence in which each move has
positive `print_time` at least the current queue end, every pair of
adjacent segments satisfies `prev.print_time + prev.move_t ≤
next.print_time`; and whenever a move opens a time gap, the inserted
null move is zero-initialised apart from carrying the new move's
`start_pos` (so its position is constant), ends exactly at the new
move's `print_time`, and its duration equals the gap except on a fresh
queue, where it is capped at `MAX_NULL_MOVE = 1`.  For merely
non-decreasing insertion `print_time`s the ordering claim fails (see
the counterexample). -/
theorem trapq_add_move_ordering :
    (∀ ms : List tmove, ok_seq 0 ms →
      List.Chain' time_ordered (trapq_add_moves ms))
    ∧ (∀ (l : List tmove) (m : tmove),
        (l ≠ [] → 0 < (l.getLastD tmove_zero).print_time) →
        0 < m.print_time → queue_end l < m.print_time →
        ∃ nm : tmove,
          trapq_add_move l m = l ++ [nm, m]
          ∧ nm.print_time + nm.move_t = m.print_time
          ∧ nm.start_pos = m.start_pos
          ∧ nm.axes_r = coord_zero
          ∧ nm.s = scurve_zero
          ∧ nm.move_t = (if l = [] then min m.print_time MAX_NULL_MOVE
                          else m.print_time - queue_end l)) := by
  constructor
  · intro ms hseq
    refine trapq_add_moves_aux ms [] List.chain'_nil (fun h => absurd rfl h) ?_
    simpa [queue_end, tmove_zero] using hseq
  · intro l m hlast hpos hgap
    rw [queue_end] at hgap
    rcases List.eq_nil_or_concat l with hl | ⟨l', a, hl⟩
    · -- fresh queue: prev is the zeroed head sentinel
      subst hl
      by_cases hbig : MAX_NULL_MOVE < m.print_time
      · refine ⟨⟨m.print_time - MAX_NULL_MOVE, MAX_NULL_MOVE, m.start_pos,
          coord_zero, scurve_zero⟩, ?_, by ring, rfl, rfl, rfl, ?_⟩
        · simp [trapq_add_move, tmove_zero, hpos, hbig]
        · rw [if_pos rfl, min_eq_right (le_of_lt hbig)]
      · refine ⟨⟨0, m.print_time, m.start_pos, coord_zero, scurve_zero⟩,
          ?_, by ring, rfl, rfl, rfl, ?_⟩
        · simp [trapq_add_move, tmove_zero, hpos, hbig]
        · rw [if_pos rfl, min_eq_left (le_of_not_lt hbig)]
    · -- non-empty queue: prev is its last move, with positive print_time
      have hne : l ≠ [] := by subst hl; simp
      have hpt : 0 < (l.getLastD tmove_zero).print_time := hlast hne
      have hcap : ¬((l.getLastD tmove_zero).print_time = 0
          ∧ MAX_NULL_MOVE < m.print_time) := fun h => absurd h.1 (ne_of_gt hpt)
      refine ⟨⟨(l.getLastD tmove_zero).print_time + (l.getLastD tmove_zero).move_t,
        m.print_time - ((l.getLastD tmove_zero).print_time
          + (l.getLastD tmove_zero).move_t),
        m.start_pos, coord_zero, scurve_zero⟩, ?_, by ring, rfl, rfl, rfl, ?_⟩
      · simp only [trapq_add_move]
        rw [if_pos hgap, if_neg hcap]
        rfl
      · rw [if_neg hne, queue_end]

/-- Concrete moves for the C1 counterexample: non-decreasing
`print_time`s but the second move starts before the first one ends. -/
def tmove_a : tmove := { tmove_zero with print_time := 1, move_t := 5 }

def tmove_b : tmove := { tmove_zero with print_time := 2, move_t := 1 }

/-- C1 counterexample.  Inserting moves at `print_time` 1 (duration 5)
and then 2 (duration 1) — a non-decreasing `print_time` sequence —
leaves adjacent segments with `prev.print_time + prev.move_t = 6 > 2 =
next.print_time`. -/
theorem trapq_add_move_ordering_cx :
    tmove_a.print_time ≤ tmove_b.print_time
    ∧ ¬ List.Chain' time_ordered (trapq_add_moves [tmove_a, tmove_b]) := by
  constructor
  · norm_num [tmove_a, tmove_b, tmove_zero]
  · intro h
    have h2 : trapq_add_moves [tmove_a, tmove_b] =
        [{ tmove_zero with start_pos := coord_zero, print_time := 0, move_t := 1 },
         tmove_a, tmove_b] := by
      norm_num [trapq_add_moves, trapq_add_move, tmove_a, tmove_b, tmove_zero,
        MAX_NULL_MOVE, coord_zero]
    rw [h2] at h
    have hab := (List.chain'_cons.1 (List.chain'_cons.1 h).2).1
    norm_num [time_ordered, tmove_a, tmove_b, tmove_zero] at hab

/-- Witness for C1 discharging both hypotheses on concrete data:
the single-move sequence at `print_time = 2` and the gap-filling
description for inserting that move into the empty queue. -/
theorem trapq_add_move_ordering_witness :
    (ok_seq 0 [tmove_b]
      ∧ List.Chain' time_ordered (trapq_add_moves [tmove_b]))
    ∧ (0 < tmove_b.print_time ∧ queue_end [] < tmove_b.print_time
      ∧ ∃ nm : tmove,
          trapq_add_move [] tmove_b = [] ++ [nm, tmove_b]
          ∧ nm.print_time + nm.move_t = tmove_b.print_time
          ∧ nm.start_pos = tmove_b.start_pos
          ∧ nm.axes_r = coord_zero
          ∧ nm.s = scurve_zero
          ∧ nm.move_t = (if ([] : List tmove) = [] then
              min tmove_b.print_time MAX_NULL_MOVE
              else tmove_b.print_time - queue_end [])) := by
  have hseq : ok_seq 0 [tmove_b] := by
    norm_num [ok_seq, tmove_b, tmove_zero]
  have hpos : 0 < tmove_b.print_time := by norm_num [tmove_b, tmove_zero]
  have hgap : queue_end [] < tmove_b.print_time := by
    norm_num [queue_end, tmove_b, tmove_zero]
  exact ⟨⟨hseq, trapq_add_move_ordering.1 [tmove_b] hseq⟩,
    hpos, hgap,
    trapq_add_move_ordering.2 [] tmove_b (fun h => absurd rfl h) hpos hgap⟩

/-! ### Move queue entry point (src/klippy/chelper/moveq.c, `moveq_add`)

The queue is the list of `qmove` records in insertion order.
`qmove_alloc` zero-initialises every field, so a move enqueued into an
empty queue keeps `max_smoothed_v2 = 0`. -/

structure accel_group_q where
  accel_order : ℤ
  max_accel : ℚ
  max_jerk : ℚ
  min_jerk_limit_time : ℚ
  min_accel : ℚ
  deriving DecidableEq, Repr

/-- `fill_accel_group` (src/klippy/chelper/accelgroup.c): derive
`min_accel = jerk * min_jerk_limit_time / 6`, clamped to `max_accel`. -/
def fill_accel_group (accel_order : ℤ) (accel jerk min_jerk_limit_time : ℚ) :
    accel_group_q :=
  let min_accel := jerk * min_jerk_limit_time / 6
  { accel_order := accel_order
    max_accel := accel
    max_jerk := jerk
    min_jerk_limit_time := min_jerk_limit_time
    min_accel := if accel < min_accel then accel else min_accel }

structure qmove where
  move_d : ℚ
  junction_max_v2 : ℚ
  max_cruise_v2 : ℚ
  smooth_delta_v2 : ℚ
  max_smoothed_v2 : ℚ
  default_accel : accel_group_q
  deriving DecidableEq, Repr

/-- `moveq_add`: allocate a zeroed `qmove`, fill its limits, and only
when the queue already has a last move take the minimum of the
propagated smoothed cap with `junction_max_v2`, this move's cruise cap
and the predecessor's cruise cap. -/
def moveq_add (queue : List qmove) (move_d junction_max_v2 velocity : ℚ)
    (accel_order : ℤ) (accel smoothed_accel jerk min_jerk_limit_time : ℚ) :
    List qmove :=
  let m : qmove :=
    { move_d := move_d
      junction_max_v2 := junction_max_v2
      max_cruise_v2 := velocity * velocity
      smooth_delta_v2 := 2 * smoothed_accel * move_d
      max_smoothed_v2 := 0
      default_accel := fill_accel_group accel_order accel jerk min_jerk_limit_time }
  match queue.getLast? with
  | none => queue ++ [m]
  | some prev_move =>
    queue ++ [{ m with
      max_smoothed_v2 :=
        min (min (prev_move.max_smoothed_v2 + prev_move.smooth_delta_v2)
              junction_max_v2)
            (min (velocity * velocity) prev_move.max_cruise_v2) }]

/-- Zero-initialised `qmove`, as produced by `qmove_alloc`'s `memset`. -/
def qmove_zero : qmove :=
  { move_d := 0, junction_max_v2 := 0, max_cruise_v2 := 0, smooth_delta_v2 := 0
    max_smoothed_v2 := 0
    default_accel := { accel_order := 0, max_accel := 0, max_jerk := 0
                       min_jerk_limit_time := 0, min_accel := 0 } }

/-- C9.  A move enqueued by `moveq_add` into an empty queue keeps the
zero-initialised `max_smoothed_v2 = 0`; the minimum with
`junction_max_v2`, the move's cruise cap and the predecessor's cruise
cap is applied exactly when a predecessor exists. -/
theorem moveq_add_first_move_smoothed (move_d junction_max_v2 velocity : ℚ)
    (accel_order : ℤ) (accel smoothed_accel jerk min_jerk_limit_time : ℚ) :
    (∀ m ∈ (moveq_add [] move_d junction_max_v2 velocity accel_order accel
        smoothed_accel jerk min_jerk_limit_time), m.max_smoothed_v2 = 0)
    ∧ (∀ (queue : List qmove) (hq : queue ≠ []),
        ((moveq_add queue move_d junction_max_v2 velocity accel_order accel
            smoothed_accel jerk min_jerk_limit_time).getLastD qmove_zero).max_smoothed_v2 =
        min (min ((queue.getLast hq).max_smoothed_v2
              + (queue.getLast hq).smooth_delta_v2) junction_max_v2)
            (min (velocity * velocity) (queue.getLast hq).max_cruise_v2)) := by
  constructor
  · intro m hm
    simp [moveq_add] at hm
    subst hm
    rfl
  · intro queue hq
    have hlast : queue.getLast? = some (queue.getLast hq) :=
      List.getLast?_eq_getLast queue hq
    simp only [moveq_add, hlast]
    rw [List.getLastD_concat]

/-- One-element queue used by the C9 witness. -/
def qmove_w : qmove :=
  { qmove_zero with max_smoothed_v2 := 1, smooth_delta_v2 := 2, max_cruise_v2 := 3 }

/-- Witness for C9: the predecessor caps are visibly applied on a
one-element queue. -/
theorem moveq_add_first_move_smoothed_witness :
    ([qmove_w] ≠ ([] : List qmove))
    ∧ ((moveq_add [qmove_w] 1 9 2 4 3 3 6 0).getLastD qmove_zero).max_smoothed_v2 =
        min (min (([qmove_w].getLast (by simp)).max_smoothed_v2
              + ([qmove_w].getLast (by simp)).smooth_delta_v2) 9)
            (min (2 * 2) (([qmove_w].getLast (by simp)).max_cruise_v2)) :=
  ⟨by simp,
    (moveq_add_first_move_smoothed 1 9 2 4 3 3 6 0).2 [qmove_w] (by simp)⟩

/-! ### Input shapers (src/klippy/chelper/kin_extruder.c, second part)

`double` expressions involving `exp`/`sqrt` are modelled over `ℝ`.
Pulse arrays become lists in index order. -/

open scoped Classical

structure shaper_pulse where
  t : ℝ
  a : ℝ

/-- `calc_ZV_K`: per-half-period decay, 1 for zero damping. -/
noncomputable def calc_ZV_K (damping_ratio : ℝ) : ℝ :=
  if damping_ratio = 0 then 1
  else Real.exp (-damping_ratio * Real.pi
        / Real.sqrt (1 - damping_ratio * damping_ratio))

noncomputable def init_shaper_zv (half_period damping_ratio : ℝ) :
    List shaper_pulse :=
  let K := calc_ZV_K damping_ratio
  let inv_D := 1 / (1 + K)
  [⟨-(1/2) * half_period, K * inv_D⟩,
   ⟨(1/2) * half_period, inv_D⟩]

noncomputable def init_shaper_zvd (half_period damping_ratio : ℝ) :
    List shaper_pulse :=
  let K := calc_ZV_K damping_ratio
  let K2 := K * K
  let inv_D := 1 / (K2 + 2 * K + 1)
  [⟨-half_period, K2 * inv_D⟩,
   ⟨0, 2 * K * inv_D⟩,
   ⟨half_period, inv_D⟩]

noncomputable def init_shaper_zvdd (half_period damping_ratio : ℝ) :
    List shaper_pulse :=
  let K := calc_ZV_K damping_ratio
  let K2 := K * K
  let K3 := K2 * K
  let inv_D := 1 / (K3 + 3 * K2 + 3 * K + 1)
  [⟨-(3/2) * half_period, K3 * inv_D⟩,
   ⟨-(1/2) * half_period, 3 * K2 * inv_D⟩,
   ⟨(1/2) * half_period, 3 * K * inv_D⟩,
   ⟨(3/2) * half_period, inv_D⟩]

noncomputable def init_shaper_zvddd (half_period damping_ratio : ℝ) :
    List shaper_pulse :=
  let K := calc_ZV_K damping_ratio
  let K2 := K * K
  let K3 := K2 * K
  let K4 := K3 * K
  let inv_D := 1 / (K4 + 4 * K3 + 6 * K2 + 4 * K + 1)
  [⟨-2 * half_period, K4 * inv_D⟩,
   ⟨-1 * half_period, 4 * K3 * inv_D⟩,
   ⟨0, 6 * K2 * inv_D⟩,
   ⟨1 * half_period, 4 * K * inv_D⟩,
   ⟨2 * half_period, inv_D⟩]

noncomputable def EI_SHAPER_VIB_TOL : ℝ := 5/100

noncomputable def init_shaper_ei (half_period damping_ratio : ℝ) :
    List shaper_pulse :=
  let k := Real.exp (-Real.pi * damping_ratio)
  let a2 := 2 * (1 - EI_SHAPER_VIB_TOL) / (1 + EI_SHAPER_VIB_TOL) * k
  let a3 := k * k
  let inv_D := 1 / (1 + a2 + a3)
  [⟨-half_period, a3 * inv_D⟩,
   ⟨0, a2 * inv_D⟩,
   ⟨half_period, inv_D⟩]

/-- Polynomial-in-damping-ratio pulse positions of the 2-hump EI shaper
(5% vibration tolerance fit). -/
noncomputable def ei2h_t2 (d_r : ℝ) : ℝ :=
  49890/100000 - 3/4 + (16270/100000) * d_r - (54262/100000) * (d_r * d_r)
    + (616180/100000) * (d_r * d_r * d_r)

noncomputable def ei2h_t3 (d_r : ℝ) : ℝ :=
  99748/100000 - 3/4 + (18382/100000) * d_r - (158270/100000) * (d_r * d_r)
    + (817120/100000) * (d_r * d_r * d_r)

noncomputable def ei2h_t4 (d_r : ℝ) : ℝ :=
  149920/100000 - 3/4 - (9297/100000) * d_r - (28338/100000) * (d_r * d_r)
    + (185710/100000) * (d_r * d_r * d_r)

noncomputable def ei2h_a1 (d_r : ℝ) : ℝ :=
  16054/100000 + (76699/100000) * d_r + (226560/100000) * (d_r * d_r)
    - (122750/100000) * (d_r * d_r * d_r)

noncomputable def ei2h_a2 (d_r : ℝ) : ℝ :=
  33911/100000 + (45081/100000) * d_r - (258080/100000) * (d_r * d_r)
    + (173650/100000) * (d_r * d_r * d_r)

noncomputable def ei2h_a3 (d_r : ℝ) : ℝ :=
  34089/100000 - (61533/100000) * d_r - (68765/100000) * (d_r * d_r)
    + (42261/100000) * (d_r * d_r * d_r)

noncomputable def ei2h_a4 (d_r : ℝ) : ℝ :=
  15997/100000 - (60246/100000) * d_r + (100280/100000) * (d_r * d_r)
    - (93145/100000) * (d_r * d_r * d_r)

noncomputable def init_shaper_2hump_ei (half_period damping_ratio : ℝ) :
    List shaper_pulse :=
  let t1 : ℝ := -(3/4)
  let inv_D := 1 / (ei2h_a1 damping_ratio + ei2h_a2 damping_ratio
      + ei2h_a3 damping_ratio + ei2h_a4 damping_ratio)
  [⟨-2 * half_period * ei2h_t4 damping_ratio, ei2h_a4 damping_ratio * inv_D⟩,
   ⟨-2 * half_period * ei2h_t3 damping_ratio, ei2h_a3 damping_ratio * inv_D⟩,
   ⟨-2 * half_period * ei2h_t2 damping_ratio, ei2h_a2 damping_ratio * inv_D⟩,
   ⟨-2 * half_period * t1, ei2h_a1 damping_ratio * inv_D⟩]

/-- Shaper dispatch table (`init_shaper_callbacks`, indices 0..5). -/
noncomputable def init_shaper_cb (shaper_type : ℤ) : ℝ → ℝ → List shaper_pulse :=
  if shaper_type = 0 then init_shaper_zv
  else if shaper_type = 1 then init_shaper_zvd
  else if shaper_type = 2 then init_shaper_zvdd
  else if shaper_type = 3 then init_shaper_zvddd
  else if shaper_type = 4 then init_shaper_ei
  else init_shaper_2hump_ei

/-- Sum of the pulse amplitudes of a shaper configuration. -/
noncomputable def pulses_amp_sum (ps : List shaper_pulse) : ℝ :=
  (ps.map shaper_pulse.a).sum

/-- Pulse times of a shaper configuration, in index order. -/
noncomputable def pulse_times (ps : List shaper_pulse) : List ℝ :=
  ps.map shaper_pulse.t

lemma calc_ZV_K_pos (damping_ratio : ℝ) : 0 < calc_ZV_K damping_ratio := by
  rw [calc_ZV_K]
  split_ifs
  · norm_num
  · exact Real.exp_pos _

lemma ei2h_denom_pos (d_r : ℝ) (h0 : 0 ≤ d_r) (h1 : d_r < 1) :
    0 < ei2h_a1 d_r + ei2h_a2 d_r + ei2h_a3 d_r + ei2h_a4 d_r := by
  simp only [ei2h_a1, ei2h_a2, ei2h_a3, ei2h_a4]
  nlinarith [mul_nonneg h0 h0, mul_nonneg (mul_nonneg h0 h0) h0,
    mul_le_one (le_of_lt h1) h0 (le_of_lt h1)]

lemma zv_amp_sum (hp dr : ℝ) : pulses_amp_sum (init_shaper_zv hp dr) = 1 := by
  have hK := calc_ZV_K_pos dr
  have h1 : (1 : ℝ) + calc_ZV_K dr ≠ 0 := by positivity
  simp only [pulses_amp_sum, init_shaper_zv, List.map_cons, List.map_nil,
    List.sum_cons, List.sum_nil]
  field_simp
  ring

lemma zvd_amp_sum (hp dr : ℝ) : pulses_amp_sum (init_shaper_zvd hp dr) = 1 := by
  have hK := calc_ZV_K_pos dr
  have h1 : calc_ZV_K dr * calc_ZV_K dr + 2 * calc_ZV_K dr + 1 ≠ 0 := by positivity
  simp only [pulses_amp_sum, init_shaper_zvd, List.map_cons, List.map_nil,
    List.sum_cons, List.sum_nil]
  field_simp
  ring

lemma zvdd_amp_sum (hp dr : ℝ) : pulses_amp_sum (init_shaper_zvdd hp dr) = 1 := by
  have hK := calc_ZV_K_pos dr
  have h1 : calc_ZV_K dr * calc_ZV_K dr * calc_ZV_K dr
      + 3 * (calc_ZV_K dr * calc_ZV_K dr) + 3 * calc_ZV_K dr + 1 ≠ 0 := by positivity
  simp only [pulses_amp_sum, init_shaper_zvdd, List.map_cons, List.map_nil,
    List.sum_cons, List.sum_nil]
  field_simp
  ring

lemma zvddd_amp_sum (hp dr : ℝ) : pulses_amp_sum (init_shaper_zvddd hp dr) = 1 := by
  have hK := calc_ZV_K_pos dr
  have h1 : calc_ZV_K dr * calc_ZV_K dr * calc_ZV_K dr * calc_ZV_K dr
      + 4 * (calc_ZV_K dr * calc_ZV_K dr * calc_ZV_K dr)
      + 6 * (calc_ZV_K dr * calc_ZV_K dr) + 4 * calc_ZV_K dr + 1 ≠ 0 := by positivity
  simp only [pulses_amp_sum, init_shaper_zvddd, List.map_cons, List.map_nil,
    List.sum_cons, List.sum_nil]
  field_simp
  ring

lemma ei_amp_sum (hp dr : ℝ) : pulses_amp_sum (init_shaper_ei hp dr) = 1 := by
  have hk := Real.exp_pos (-Real.pi * dr)
  have hc : 2 * (1 - EI_SHAPER_VIB_TOL) / (1 + EI_SHAPER_VIB_TOL) = 38/21 := by
    rw [EI_SHAPER_VIB_TOL]; norm_num
  simp only [pulses_amp_sum, init_shaper_ei, List.map_cons, List.map_nil,
    List.sum_cons, List.sum_nil, hc]
  have h1 : 1 + 38/21 * Real.exp (-Real.pi * dr)
      + Real.exp (-Real.pi * dr) * Real.exp (-Real.pi * dr) ≠ 0 := by nlinarith
  field_simp
  ring

lemma ei2h_amp_sum (hp dr : ℝ) (h0 : 0 ≤ dr) (h1 : dr < 1) :
    pulses_amp_sum (init_shaper_2hump_ei hp dr) = 1 := by
  have hS := ei2h_denom_pos dr h0 h1
  have hS' : ei2h_a1 dr + ei2h_a2 dr + ei2h_a3 dr + ei2h_a4 dr ≠ 0 := ne_of_gt hS
  simp only [pulses_amp_sum, init_shaper_2hump_ei, List.map_cons, List.map_nil,
    List.sum_cons, List.sum_nil]
  field_simp
  ring

/-- C7.  For each of the six supported shaper types, every half-period,
and every damping ratio in `[0, 1)`, the configured pulse amplitudes sum
to exactly 1 (so certainly within `1e-12`). -/
theorem shaper_amplitudes_normalised (shaper_type : ℤ) (half_period damping_ratio : ℝ)
    (ht0 : 0 ≤ shaper_type) (ht6 : shaper_type < 6)
    (hd0 : 0 ≤ damping_ratio) (hd1 : damping_ratio < 1) :
    |pulses_amp_sum (init_shaper_cb shaper_type half_period damping_ratio) - 1|
      ≤ 1/10^12 := by
  interval_cases shaper_type
  · rw [show init_shaper_cb 0 = init_shaper_zv from rfl,
      zv_amp_sum half_period damping_ratio]
    norm_num
  · rw [show init_shaper_cb 1 = init_shaper_zvd from by norm_num [init_shaper_cb],
      zvd_amp_sum half_period damping_ratio]
    norm_num
  · rw [show init_shaper_cb 2 = init_shaper_zvdd from by norm_num [init_shaper_cb],
      zvdd_amp_sum half_period damping_ratio]
    norm_num
  · rw [show init_shaper_cb 3 = init_shaper_zvddd from by norm_num [init_shaper_cb],
      zvddd_amp_sum half_period damping_ratio]
    norm_num
  · rw [show init_shaper_cb 4 = init_shaper_ei from by norm_num [init_shaper_cb],
      ei_amp_sum half_period damping_ratio]
    norm_num
  · rw [show init_shaper_cb 5 = init_shaper_2hump_ei from by norm_num [init_shaper_cb],
      ei2h_amp_sum half_period damping_ratio hd0 hd1]
    norm_num

/-- Witness for C7: the ZV shaper at half-period 1, damping ratio 1/2. -/
theorem shaper_amplitudes_normalised_witness :
    ((0:ℤ) ≤ 0 ∧ (0:ℤ) < 6 ∧ (0:ℝ) ≤ 1/2 ∧ (1/2:ℝ) < 1)
    ∧ |pulses_amp_sum (init_shaper_cb 0 1 (1/2)) - 1| ≤ 1/10^12 :=
  ⟨⟨le_refl 0, by norm_num, by norm_num, by norm_num⟩,
    shaper_amplitudes_normalised 0 1 (1/2) (le_refl 0) (by norm_num)
      (by norm_num) (by norm_num)⟩

lemma ei2h_t_ordered (dr : ℝ) (h0 : 0 ≤ dr) (h4 : dr ≤ 2/5) :
    -(3/4) ≤ ei2h_t2 dr ∧ ei2h_t2 dr ≤ ei2h_t3 dr ∧ ei2h_t3 dr ≤ ei2h_t4 dr := by
  have h2 : dr * dr ≤ 2/5 * dr := mul_le_mul_of_nonneg_right h4 h0
  have h3 : dr * dr * dr ≤ 2/5 * (dr * dr) := by
    nlinarith [mul_le_mul_of_nonneg_right h4 (mul_nonneg h0 h0)]
  have hcube : 0 ≤ dr * dr * dr := mul_nonneg (mul_nonneg h0 h0) h0
  refine ⟨?_, ?_, ?_⟩
  · rw [ei2h_t2]; nlinarith
  · rw [ei2h_t2, ei2h_t3]; nlinarith
  · rw [ei2h_t3, ei2h_t4]; nlinarith

/-- C10 (amended).  For the ZV, ZVD, ZVDD, ZVDDD and EI shapers the
pulse times are non-decreasing for every half-period `≥ 0` and damping
ratio in `[0, 1)`; for the 2-hump EI shaper this holds on damping
ratios up to `2/5` but fails at larger ratios (see the
counterexample). -/
theorem shaper_pulse_times_sorted (shaper_type : ℤ) (half_period damping_ratio : ℝ)
    (ht0 : 0 ≤ shaper_type) (ht6 : shaper_type < 6)
    (hhp : 0 ≤ half_period) (hd0 : 0 ≤ damping_ratio) (hd1 : damping_ratio < 1)
    (h2h : shaper_type = 5 → damping_ratio ≤ 2/5) :
    List.Chain' (· ≤ ·)
      (pulse_times (init_shaper_cb shaper_type half_period damping_ratio)) := by
  interval_cases shaper_type
  · rw [show init_shaper_cb 0 = init_shaper_zv from rfl]
    simp only [pulse_times, init_shaper_zv, List.map_cons, List.map_nil]
    simp only [List.chain'_cons, List.chain'_singleton, and_true]
    linarith
  · rw [show init_shaper_cb 1 = init_shaper_zvd from by norm_num [init_shaper_cb]]
    simp only [pulse_times, init_shaper_zvd, List.map_cons, List.map_nil]
    simp only [List.chain'_cons, List.chain'_singleton, and_true]
    exact ⟨by linarith, by linarith⟩
  · rw [show init_shaper_cb 2 = init_shaper_zvdd from by norm_num [init_shaper_cb]]
    simp only [pulse_times, init_shaper_zvdd, List.map_cons, List.map_nil]
    simp only [List.chain'_cons, List.chain'_singleton, and_true]
    exact ⟨by linarith, by linarith, by linarith⟩
  · rw [show init_shaper_cb 3 = init_shaper_zvddd from by norm_num [init_shaper_cb]]
    simp only [pulse_times, init_shaper_zvddd, List.map_cons, List.map_nil]
    simp only [List.chain'_cons, List.chain'_singleton, and_true]
    exact ⟨by linarith, by linarith, by linarith, by linarith⟩
  · rw [show init_shaper_cb 4 = init_shaper_ei from by norm_num [init_shaper_cb]]
    simp only [pulse_times, init_shaper_ei, List.map_cons, List.map_nil]
    simp only [List.chain'_cons, List.chain'_singleton, and_true]
    exact ⟨by linarith, by linarith⟩
  · rw [show init_shaper_cb 5 = init_shaper_2hump_ei from by norm_num [init_shaper_cb]]
    obtain ⟨h21, h32, h43⟩ := ei2h_t_ordered damping_ratio hd0 (h2h rfl)
    simp only [pulse_times, init_shaper_2hump_ei, List.map_cons, List.map_nil]
    simp only [List.chain'_cons, List.chain'_singleton, and_true]
    refine ⟨?_, ?_, ?_⟩
    · nlinarith [mul_nonneg hhp (sub_nonneg.2 h43)]
    · nlinarith [mul_nonneg hhp (sub_nonneg.2 h32)]
    · nlinarith [mul_nonneg hhp (sub_nonneg.2 h21)]

/-- Witness for C10: the 2-hump EI shaper at half-period 1, damping
ratio 1/5 has non-decreasing pulse times. -/
theorem shaper_pulse_times_sorted_witness :
    ((0:ℤ) ≤ 5 ∧ (5:ℤ) < 6 ∧ (0:ℝ) ≤ 1 ∧ (0:ℝ) ≤ 1/5 ∧ (1/5:ℝ) < 1
      ∧ ((5:ℤ) = 5 → (1/5:ℝ) ≤ 2/5))
    ∧ List.Chain' (· ≤ ·) (pulse_times (init_shaper_cb 5 1 (1/5))) :=
  ⟨⟨by norm_num, by norm_num, by norm_num, by norm_num, by norm_num,
      fun _ => by norm_num⟩,
    shaper_pulse_times_sorted 5 1 (1/5) (by norm_num) (by norm_num) (by norm_num)
      (by norm_num) (by norm_num) (fun _ => by norm_num)⟩

/-- C10 counterexample.  The 2-hump EI shaper at damping ratio 1/2 and
half-period 1 has `pulses[0].t ≈ -1.728 > pulses[1].t ≈ -1.930`: the
polynomial fit's pulse times go backwards at large damping. -/
theorem shaper_pulse_times_sorted_cx :
    ((0:ℝ) ≤ 1 ∧ (0:ℝ) ≤ 1/2 ∧ (1/2:ℝ) < 1)
    ∧ ¬ List.Chain' (· ≤ ·) (pulse_times (init_shaper_cb 5 1 (1/2))) := by
  refine ⟨⟨by norm_num, by norm_num, by norm_num⟩, fun h => ?_⟩
  rw [show init_shaper_cb 5 = init_shaper_2hump_ei from by
    norm_num [init_shaper_cb]] at h
  simp only [pulse_times, init_shaper_2hump_ei, List.map_cons, List.map_nil] at h
  have h01 := (List.chain'_cons.1 h).1
  rw [ei2h_t4, ei2h_t3] at h01
  norm_num at h01

/-! ### Filter configuration error paths
(src/klippy/chelper/kin_extruder.c `input_shaper_set_shaper_params`,
src/unnamed/part_000 `smooth_axis_set_sk`)

`stepper_kinematics.active_flags` is a bitset over axes (the constants
live in `itersolve.h`, outside `src/`); the X and Y membership tests the
code performs are modelled as two booleans. -/

structure input_shaper where
  pulses : List shaper_pulse
  n : ℤ
  gen_steps_pre_active : ℝ
  gen_steps_post_active : ℝ

/-- `input_shaper_set_shaper_params`: reject an out-of-range shaper
type before freeing or rebuilding the pulse list
(`ARRAY_SIZE(init_shaper_callbacks) = 6`). -/
noncomputable def input_shaper_set_shaper_params (is : input_shaper)
    (damped_spring_period damping_ratio : ℝ) (shaper_type : ℤ) :
    ℤ × input_shaper :=
  if 6 ≤ shaper_type ∨ shaper_type < 0 then (-1, is)
  else
    let pulses := init_shaper_cb shaper_type ((1/2) * damped_spring_period)
        damping_ratio
    (0, { pulses := pulses
          n := pulses.length
          gen_steps_pre_active := -(pulses.headD ⟨0, 0⟩).t
          gen_steps_post_active := (pulses.getLastD ⟨0, 0⟩).t })

structure stepper_kinematics where
  active_x : Bool
  active_y : Bool
  deriving DecidableEq

inductive smooth_cb where
  | cb_null
  | cb_smooth_x
  | cb_smooth_y
  | cb_smooth_xy
  deriving DecidableEq

structure smooth_axis where
  calc_position_cb : smooth_cb
  active_x : Bool
  active_y : Bool
  orig_sk : Option stepper_kinematics
  deriving DecidableEq

/-- `smooth_axis_set_sk`: pick the calc-position callback from the
wrapped kinematics' active X/Y axes; reject (code `-1`) and change
nothing when neither axis is active. -/
def smooth_axis_set_sk (sa : smooth_axis) (orig_sk : stepper_kinematics) :
    ℤ × smooth_axis :=
  if orig_sk.active_x ∧ orig_sk.active_y then
    (0, { sa with
          calc_position_cb := smooth_cb.cb_smooth_xy
          active_x := orig_sk.active_x
          active_y := orig_sk.active_y
          orig_sk := some orig_sk })
  else if orig_sk.active_x then
    (0, { sa with
          calc_position_cb := smooth_cb.cb_smooth_x
          active_x := orig_sk.active_x
          active_y := orig_sk.active_y
          orig_sk := some orig_sk })
  else if orig_sk.active_y then
    (0, { sa with
          calc_position_cb := smooth_cb.cb_smooth_y
          active_x := orig_sk.active_x
          active_y := orig_sk.active_y
          orig_sk := some orig_sk })
  else
    (-1, sa)

/-- C8.  An out-of-range shaper type makes
`input_shaper_set_shaper_params` return a nonzero code with the filter
state (pulse list and count included) untouched, and a wrapped
kinematics with neither X nor Y active makes `smooth_axis_set_sk`
return a nonzero code with the filter's callback and wrapped kinematics
untouched. -/
theorem invalid_filter_config_preserves_state :
    (∀ (is : input_shaper) (period dr : ℝ) (shaper_type : ℤ),
      (shaper_type < 0 ∨ 6 ≤ shaper_type) →
      (input_shaper_set_shaper_params is period dr shaper_type).1 ≠ 0
      ∧ (input_shaper_set_shaper_params is period dr shaper_type).2 = is)
    ∧ (∀ (sa : smooth_axis) (orig_sk : stepper_kinematics),
        orig_sk.active_x = false → orig_sk.active_y = false →
        (smooth_axis_set_sk sa orig_sk).1 ≠ 0
        ∧ (smooth_axis_set_sk sa orig_sk).2 = sa) := by
  constructor
  · intro is period dr shaper_type htype
    have h : 6 ≤ shaper_type ∨ shaper_type < 0 := htype.symm
    rw [input_shaper_set_shaper_params, if_pos h]
    exact ⟨by norm_num, rfl⟩
  · intro sa orig_sk hx hy
    rw [smooth_axis_set_sk]
    rw [if_neg (by simp [hx]), if_neg (by simp [hx]), if_neg (by simp [hy])]
    exact ⟨by norm_num, rfl⟩

/-- Witness for C8: shaper type 7 on an empty filter and an inactive
wrapped kinematics on a fresh smoothing filter. -/
theorem invalid_filter_config_preserves_state_witness :
    ((7:ℤ) < 0 ∨ (6:ℤ) ≤ 7)
    ∧ (input_shaper_set_shaper_params ⟨[], 0, 0, 0⟩ 1 0 7).1 ≠ 0
    ∧ (input_shaper_set_shaper_params ⟨[], 0, 0, 0⟩ 1 0 7).2 = ⟨[], 0, 0, 0⟩
    ∧ (smooth_axis_set_sk ⟨smooth_cb.cb_null, false, false, none⟩
        ⟨false, false⟩).1 ≠ 0
    ∧ (smooth_axis_set_sk ⟨smooth_cb.cb_null, false, false, none⟩
        ⟨false, false⟩).2 = ⟨smooth_cb.cb_null, false, false, none⟩ := by
  have h1 := invalid_filter_config_preserves_state.1 ⟨[], 0, 0, 0⟩ 1 0 7
    (Or.inr (by norm_num))
  have h2 := invalid_filter_config_preserves_state.2
    ⟨smooth_cb.cb_null, false, false, none⟩ ⟨false, false⟩ rfl rfl
  exact ⟨Or.inr (by norm_num), h1.1, h1.2, h2.1, h2.2⟩

/-! ### Acceleration groups (src/klippy/chelper/accelgroup.c, first part)

`sqrt` and `pow(x, 1/3)` force the embedding over `ℝ`.  The
`ag->start_accel` pointer becomes an explicit second argument `sa`
(the group at the ramp's head); `ag->move` dereferences become the
fields `accel_comp` (the owning move's compensation) and `move_id` (the
pointer identity). -/

structure accel_group where
  accel_order : ℤ
  max_accel : ℝ
  min_accel : ℝ
  max_jerk : ℝ
  min_jerk_limit_time : ℝ
  combined_d : ℝ
  max_start_v2 : ℝ
  max_start_v : ℝ
  max_end_v2 : ℝ
  accel_comp : ℝ
  move_id : ℕ

/-- `set_max_start_v2`: store a squared velocity and its root. -/
noncomputable def set_max_start_v2 (ag : accel_group) (start_v2 : ℝ) :
    accel_group :=
  { ag with max_start_v2 := start_v2, max_start_v := Real.sqrt start_v2 }

/-- Cardano intermediate `c = dist^2 * jerk / 3`. -/
noncomputable def cardano_c (ag : accel_group) : ℝ :=
  ag.combined_d * ag.combined_d * ag.max_jerk / 3

/-- Cardano intermediate `b = a^3` with `a = (2/3) * start_v`. -/
noncomputable def cardano_b (sa : accel_group) : ℝ :=
  (2/3 * sa.max_start_v) * (2/3 * sa.max_start_v) * (2/3 * sa.max_start_v)

/-- Cardano intermediate `d = sqrt(c * (c + 2b))`. -/
noncomputable def cardano_d (ag sa : accel_group) : ℝ :=
  Real.sqrt (cardano_c ag * (cardano_c ag + 2 * cardano_b sa))

/-- Cardano intermediate `e = (b + c + d)^(1/3)`. -/
noncomputable def cardano_e (ag sa : accel_group) : ℝ :=
  (cardano_b sa + cardano_c ag + cardano_d ag sa) ^ ((1:ℝ)/3)

/-- `calc_max_v2`: reachable squared velocity after `combined_d`,
starting from `sa = ag->start_accel`. -/
noncomputable def calc_max_v2 (ag sa : accel_group) : ℝ :=
  let dist := ag.combined_d
  let start_v2 := sa.max_start_v2
  let max_accel_v2 := start_v2 + 2 * dist * ag.max_accel
  if ag.accel_order = 2 then max_accel_v2
  else
    let start_v := sa.max_start_v
    let a := 2/3 * start_v
    let e := cardano_e ag sa
    if e < 1/10^9 then start_v
    else
      let max_v := e + a * a / e - start_v / 3
      let max_v2 := max_v * max_v
      let max_v2' := if max_accel_v2 < max_v2 then max_accel_v2 else max_v2
      if start_v2 + 2 * dist * ag.min_accel > max_v2' then
        start_v2 + 2 * dist * ag.min_accel
      else max_v2'

/-- C5 (amended).  When the Cardano intermediate `e` is not degenerate
(`e ≥ 1e-9`, the main branch), `calc_max_v2` on a group with order 4 or
6, `combined_d ≥ 0` and `0 ≤ min_accel ≤ max_accel` lies between the
floor `start_v2 + 2*combined_d*min_accel` and the order-2 bound
`start_v2 + 2*combined_d*max_accel`; in the degenerate branch the code
returns `start_v` instead, which can undershoot the floor (see the
counterexample). -/
theorem calc_max_v2_bounds (ag sa : accel_group)
    (horder : ag.accel_order = 4 ∨ ag.accel_order = 6)
    (hd : 0 ≤ ag.combined_d)
    (hmin0 : 0 ≤ ag.min_accel) (hminmax : ag.min_accel ≤ ag.max_accel)
    (he : ¬ cardano_e ag sa < 1/10^9) :
    sa.max_start_v2 + 2 * ag.combined_d * ag.min_accel ≤ calc_max_v2 ag sa
    ∧ calc_max_v2 ag sa ≤ sa.max_start_v2 + 2 * ag.combined_d * ag.max_accel := by
  have h2 : ¬ ag.accel_order = 2 := by
    rcases horder with h | h <;> rw [h] <;> norm_num
  have hFC : sa.max_start_v2 + 2 * ag.combined_d * ag.min_accel
      ≤ sa.max_start_v2 + 2 * ag.combined_d * ag.max_accel := by nlinarith
  rw [calc_max_v2]
  simp only [if_neg h2, if_neg he]
  split_ifs <;> constructor <;> linarith

/-- Degenerate-branch input for the C5 counterexample: order 4,
zero jerk (so `e = 0`), unit distance, positive `min_accel`. -/
noncomputable def ag_cx : accel_group :=
  { accel_order := 4, max_accel := 2, min_accel := 1, max_jerk := 0
    min_jerk_limit_time := 0, combined_d := 1, max_start_v2 := 0
    max_start_v := 0, max_end_v2 := 0, accel_comp := 0, move_id := 0 }

lemma cardano_e_ag_cx : cardano_e ag_cx ag_cx = 0 := by
  have hc : cardano_c ag_cx = 0 := by norm_num [cardano_c, ag_cx]
  have hb : cardano_b ag_cx = 0 := by norm_num [cardano_b, ag_cx]
  have hdd : cardano_d ag_cx ag_cx = 0 := by
    rw [cardano_d, hc, hb]
    norm_num
  rw [cardano_e, hb, hc, hdd]
  rw [show (0:ℝ) + 0 + 0 = 0 by norm_num]
  exact Real.zero_rpow (by norm_num)

/-- C5 counterexample.  On `ag_cx` all of the claim's hypotheses hold
(order 4, `combined_d = 1 ≥ 0`, `0 ≤ min_accel = 1 ≤ max_accel = 2`),
but the degenerate Cardano branch returns `start_v = 0`, below the
claimed floor `start_v2 + 2*combined_d*min_accel = 2`. -/
theorem calc_max_v2_bounds_cx :
    (ag_cx.accel_order = 4 ∨ ag_cx.accel_order = 6)
    ∧ 0 ≤ ag_cx.combined_d ∧ 0 ≤ ag_cx.min_accel
    ∧ ag_cx.min_accel ≤ ag_cx.max_accel
    ∧ ¬ (ag_cx.max_start_v2 + 2 * ag_cx.combined_d * ag_cx.min_accel
          ≤ calc_max_v2 ag_cx ag_cx) := by
  have hv : calc_max_v2 ag_cx ag_cx = 0 := by
    rw [calc_max_v2]
    rw [if_neg (by norm_num [ag_cx] : ¬ ag_cx.accel_order = 2)]
    rw [if_pos (by rw [cardano_e_ag_cx]; norm_num)]
    norm_num [ag_cx]
  refine ⟨Or.inl (by norm_num [ag_cx]), by norm_num [ag_cx],
    by norm_num [ag_cx], by norm_num [ag_cx], ?_⟩
  rw [hv]
  norm_num [ag_cx]

/-- Main-branch input for the C5 witness: `b = 0`, `c = d = 1/2`, so
`e = 1^(1/3) = 1`. -/
noncomputable def ag_w : accel_group :=
  { accel_order := 4, max_accel := 1, min_accel := 0, max_jerk := 3/2
    min_jerk_limit_time := 0, combined_d := 1, max_start_v2 := 0
    max_start_v := 0, max_end_v2 := 0, accel_comp := 0, move_id := 0 }

lemma cardano_e_ag_w : cardano_e ag_w ag_w = 1 := by
  have hc : cardano_c ag_w = 1/2 := by norm_num [cardano_c, ag_w]
  have hb : cardano_b ag_w = 0 := by norm_num [cardano_b, ag_w]
  have hdd : cardano_d ag_w ag_w = 1/2 := by
    rw [cardano_d, hc, hb]
    rw [show (1:ℝ)/2 * (1/2 + 2 * 0) = (1/2)^2 by norm_num]
    exact Real.sqrt_sq (by norm_num)
  rw [cardano_e, hb, hc, hdd]
  rw [show (0:ℝ) + 1/2 + 1/2 = 1 by norm_num]
  exact Real.one_rpow _

/-- Witness for C5 on `ag_w`, whose Cardano `e` equals 1. -/
theorem calc_max_v2_bounds_witness :
    ((ag_w.accel_order = 4 ∨ ag_w.accel_order = 6)
      ∧ 0 ≤ ag_w.combined_d ∧ 0 ≤ ag_w.min_accel
      ∧ ag_w.min_accel ≤ ag_w.max_accel
      ∧ ¬ cardano_e ag_w ag_w < 1/10^9)
    ∧ ag_w.max_start_v2 + 2 * ag_w.combined_d * ag_w.min_accel
        ≤ calc_max_v2 ag_w ag_w
    ∧ calc_max_v2 ag_w ag_w
        ≤ ag_w.max_start_v2 + 2 * ag_w.combined_d * ag_w.max_accel := by
  have he : ¬ cardano_e ag_w ag_w < 1/10^9 := by
    rw [cardano_e_ag_w]; norm_num
  have hmain := calc_max_v2_bounds ag_w ag_w (Or.inl (by norm_num [ag_w]))
    (by norm_num [ag_w]) (by norm_num [ag_w]) (by norm_num [ag_w]) he
  exact ⟨⟨Or.inl (by norm_num [ag_w]), by norm_num [ag_w], by norm_num [ag_w],
    by norm_num [ag_w], he⟩, hmain.1, hmain.2⟩

/-! ### Acceleration combiner (src/klippy/chelper/accelgroup.c, second part)

Junction points are kept in candidate order (the C list head first).
`jp->move_ag` (the pointer to the owning move's real accel group) is a
record copy taken after that move's `process_next_accel` call updated
it, which is when the C code next dereferences the pointer; the
`ag->start_accel := best_jp->move_ag` assignment at the end of
`process_next_accel` is returned as the third component (the chain
head's move identity). -/

noncomputable def EPSILON : ℝ := 1/10^9

/-- `limit_accel`: monotonically lower the acceleration and jerk caps
and re-derive `min_accel`. -/
noncomputable def limit_accel (ag : accel_group) (accel jerk : ℝ) : accel_group :=
  let accel' := if accel < 0 then 0 else accel
  let new_max_accel := min ag.max_accel accel'
  let new_max_jerk := min ag.max_jerk jerk
  let min_accel0 := new_max_jerk * ag.min_jerk_limit_time / 6
  let min_accel1 := if ag.min_accel > min_accel0 then min_accel0 else ag.min_accel
  { ag with
    max_accel := new_max_accel
    max_jerk := new_max_jerk
    min_accel := if min_accel1 > new_max_accel then new_max_accel else min_accel1 }

/-- `calc_min_accel_time` (with `sa = ag->start_accel`). -/
noncomputable def calc_min_accel_time (ag sa : accel_group) (cruise_v : ℝ) : ℝ :=
  let delta_v := cruise_v - sa.max_start_v
  if |delta_v| < 1/10^9 then 0
  else
    let t0 := delta_v / ag.max_accel
    let t1 := if 2 < ag.accel_order then
        (if t0 < Real.sqrt (6 * delta_v / ag.max_jerk) then
          Real.sqrt (6 * delta_v / ag.max_jerk) else t0)
      else t0
    if ag.min_accel ≠ 0 then
      (if delta_v / ag.min_accel < t1 then delta_v / ag.min_accel else t1)
    else t1

/-- `calc_min_accel_group_time` (with `sa = ag->start_accel`). -/
noncomputable def calc_min_accel_group_time (ag sa : accel_group) (cruise_v : ℝ) : ℝ :=
  if cruise_v ≤ sa.max_start_v then ag.combined_d / cruise_v
  else
    let accel_t := calc_min_accel_time ag sa cruise_v
    let accel_d := (sa.max_start_v + cruise_v) * (1/2) * accel_t
    accel_t + (ag.combined_d - accel_d) / cruise_v

structure junction_point where
  accel : accel_group
  move_ag : accel_group
  move_max_cruise_v2 : ℝ
  min_start_time : ℝ

structure accel_combiner where
  junctions : List junction_point
  junct_start_v2 : ℝ
  min_end_time : ℝ

/-- `create_junction_point`: seed a candidate from `ag`, bounded by the
junction cap and either the previous candidate's reachable end (and its
move's cruise cap) or the combiner's anchor velocity. -/
noncomputable def create_junction_point (ac : accel_combiner) (ag : accel_group)
    (move_max_cruise_v2 junction_max_v2 : ℝ) : junction_point :=
  match ac.junctions.getLast? with
  | some prev_jp =>
    { accel := set_max_start_v2 ag
        (min junction_max_v2
          (min prev_jp.move_ag.max_end_v2 prev_jp.move_max_cruise_v2))
      move_ag := ag
      move_max_cruise_v2 := move_max_cruise_v2
      min_start_time := ac.min_end_time }
  | none =>
    { accel := set_max_start_v2 ag (min junction_max_v2 ac.junct_start_v2)
      move_ag := ag
      move_max_cruise_v2 := move_max_cruise_v2
      min_start_time := 0 }

/-- `check_can_combine`: a new ramp may extend the candidate chain only
when the list is non-empty, the new group's order is not 2 and matches
the last candidate's order, and the owning moves' `accel_comp` agree. -/
def check_can_combine (ac : accel_combiner) (next_accel : accel_group) : Prop :=
  match ac.junctions.getLast? with
  | none => False
  | some prev_jp =>
    next_accel.accel_order ≠ 2
    ∧ prev_jp.move_ag.accel_order = next_accel.accel_order
    ∧ prev_jp.move_ag.accel_comp = next_accel.accel_comp

/-- Remove the maximal suffix of candidates satisfying `p`
(`drop_decelerating_jps` pops from the list tail). -/
noncomputable def drop_tail_while (p : junction_point → Prop) :
    List junction_point → List junction_point
  | [] => []
  | x :: xs =>
    let r := drop_tail_while p xs
    if r.isEmpty then (if p x then [] else [x]) else x :: r

/-- `limit_accel_jps` body for a single retained candidate. -/
noncomputable def limit_accel_jp (new_ag : accel_group) (junction_max_v2 : ℝ)
    (jp : junction_point) : junction_point :=
  { jp with
    accel := limit_accel jp.accel
      (min ((1/2) * (junction_max_v2 - jp.accel.max_start_v2)
              / jp.accel.combined_d)
        new_ag.max_accel)
      new_ag.max_jerk }

/-- `calc_best_jp` loop body on one candidate: extend `combined_d` by
the new move and recompute the reachable end velocity (the candidate's
`accel.start_accel` is itself). -/
noncomputable def jp_update (move_d : ℝ) (jp : junction_point) : junction_point :=
  let acc1 := { jp.accel with combined_d := jp.accel.combined_d + move_d }
  { jp with accel := { acc1 with max_end_v2 := calc_max_v2 acc1 acc1 } }

/-- `calc_min_accel_end_time` for a candidate at a given cruise cap. -/
noncomputable def jp_end_time (max_cruise_v2 : ℝ) (jp : junction_point) : ℝ :=
  jp.min_start_time + calc_min_accel_group_time jp.accel jp.accel
    (Real.sqrt (min jp.accel.max_end_v2 max_cruise_v2))

/-- Best-candidate selection of `calc_best_jp`: first candidate wins
unless a later one improves the ending time by more than `EPSILON`. -/
noncomputable def calc_best_jp_fold (max_cruise_v2 : ℝ)
    (l : List junction_point) : Option junction_point × ℝ :=
  l.foldl (fun best jp =>
    match best with
    | (none, _) => (some jp, jp_end_time max_cruise_v2 jp)
    | (some b, met) =>
      if jp_end_time max_cruise_v2 jp + EPSILON < met then
        (some jp, jp_end_time max_cruise_v2 jp)
      else (some b, met)) (none, -1)

/-- Retained candidates after the drop-dominated and re-limit steps. -/
noncomputable def drop_limit_jps (ag : accel_group)
    (start_v2 junction_max_v2 : ℝ) (l : List junction_point) :
    List junction_point :=
  (drop_tail_while
      (fun jp => ¬(jp.accel.max_start_v2 + EPSILON < min start_v2 junction_max_v2))
      l).map (limit_accel_jp ag junction_max_v2)

/-- `process_next_accel`: build the new candidate, reset the list unless
the combinability test passes, drop dominated candidates, re-limit the
rest, append the new candidate, pick the best one, and copy its results
back into the caller's group.  Returns the new combiner state, the
updated group, and the identity of the move whose group becomes
`ag->start_accel`. -/
noncomputable def process_next_accel (ac : accel_combiner) (ag : accel_group)
    (move_d move_max_cruise_v2 junction_max_v2 : ℝ) :
    accel_combiner × accel_group × ℕ :=
  let new_jp := create_junction_point ac ag move_max_cruise_v2 junction_max_v2
  let start_v2 := new_jp.accel.max_start_v2
  let ac1 := if check_can_combine ac ag then ac
    else { junctions := [], junct_start_v2 := start_v2, min_end_time := 0 }
  let l4 := (drop_limit_jps ag start_v2 junction_max_v2 ac1.junctions
      ++ [new_jp]).map (jp_update move_d)
  let best := (calc_best_jp_fold move_max_cruise_v2 l4).1.getD
      (jp_update move_d new_jp)
  let ag1 := { set_max_start_v2
      (limit_accel ag best.accel.max_accel best.accel.max_jerk) start_v2 with
    max_end_v2 := best.accel.max_end_v2
    combined_d := best.accel.combined_d }
  let l5 := l4.dropLast ++ [{ l4.getLastD (jp_update move_d new_jp) with
    move_ag := ag1 }]
  (⟨l5, ac1.junct_start_v2, (calc_best_jp_fold move_max_cruise_v2 l4).2⟩,
    ag1, best.move_ag.move_id)

/-- Candidate identity: the owning move of a junction point. -/
def jp_key (jp : junction_point) : ℕ := jp.move_ag.move_id

lemma drop_tail_while_take (p : junction_point → Prop) (l : List junction_point) :
    ∃ n, drop_tail_while p l = l.take n := by
  induction l with
  | nil => exact ⟨0, rfl⟩
  | cons x xs ih =>
    obtain ⟨m, hm⟩ := ih
    rw [drop_tail_while]
    split_ifs with h1 h2
    · exact ⟨0, rfl⟩
    · exact ⟨1, by simp⟩
    · exact ⟨m + 1, by rw [hm]; rfl⟩

lemma jp_key_limit (new_ag : accel_group) (junction_max_v2 : ℝ)
    (jp : junction_point) : jp_key (limit_accel_jp new_ag junction_max_v2 jp) = jp_key jp :=
  rfl

lemma jp_key_update (move_d : ℝ) (jp : junction_point) :
    jp_key (jp_update move_d jp) = jp_key jp :=
  rfl

lemma map_key_update (move_d : ℝ) (X : List junction_point) :
    (X.map (jp_update move_d)).map jp_key = X.map jp_key := by
  simp [List.map_map, Function.comp, jp_key_update]

lemma map_key_limit (new_ag : accel_group) (junction_max_v2 : ℝ)
    (X : List junction_point) :
    (X.map (limit_accel_jp new_ag junction_max_v2)).map jp_key = X.map jp_key := by
  simp [List.map_map, Function.comp, jp_key_limit]

/-- C6.  `process_next_accel` keeps (a possibly shortened prefix of) the
existing candidate list, extended by the new candidate, exactly when the
list is non-empty, the new group's `accel_order` equals the last
candidate's, that order is not 2, and the owning moves' `accel_comp`
agree; in every other case the list is reset to hold only the new
candidate and the combiner is re-anchored at that candidate's own start
velocity squared. -/
theorem process_next_accel_reset_iff (ac : accel_combiner) (ag : accel_group)
    (move_d move_max_cruise_v2 junction_max_v2 : ℝ) :
    (¬ check_can_combine ac ag →
      ((process_next_accel ac ag move_d move_max_cruise_v2
          junction_max_v2).1.junctions.map jp_key = [ag.move_id]
        ∧ (process_next_accel ac ag move_d move_max_cruise_v2
            junction_max_v2).1.junct_start_v2
          = (create_junction_point ac ag move_max_cruise_v2
              junction_max_v2).accel.max_start_v2))
    ∧ (check_can_combine ac ag →
      ((∃ n, (process_next_accel ac ag move_d move_max_cruise_v2
            junction_max_v2).1.junctions.map jp_key
          = (ac.junctions.map jp_key).take n ++ [ag.move_id])
        ∧ (process_next_accel ac ag move_d move_max_cruise_v2
            junction_max_v2).1.junct_start_v2 = ac.junct_start_v2)) := by
  constructor
  · intro h
    simp only [process_next_accel, if_neg h]
    constructor
    · simp [drop_limit_jps, drop_tail_while, jp_key, jp_update,
        set_max_start_v2, limit_accel]
    · trivial
  · intro h
    simp only [process_next_accel, if_pos h]
    obtain ⟨n, hn⟩ := drop_tail_while_take
      (fun jp => ¬(jp.accel.max_start_v2 + EPSILON <
        min (create_junction_point ac ag move_max_cruise_v2
              junction_max_v2).accel.max_start_v2 junction_max_v2))
      ac.junctions
    refine ⟨⟨n, ?_⟩, trivial⟩
    simp only [drop_limit_jps, hn, List.map_append, List.map_cons, List.map_nil,
      List.dropLast_concat, List.getLastD_concat]
    congr 1
    rw [map_key_update, map_key_limit, List.map_take]

/-- Witness for C6: on an empty combiner the combinability test fails
and the result holds only the new candidate, anchored at its own
squared start velocity. -/
theorem process_next_accel_reset_iff_witness :
    ¬ check_can_combine ⟨[], 0, 0⟩ ag_w
    ∧ ((process_next_accel ⟨[], 0, 0⟩ ag_w 1 1 1).1.junctions.map jp_key
        = [ag_w.move_id]
      ∧ (process_next_accel ⟨[], 0, 0⟩ ag_w 1 1 1).1.junct_start_v2
        = (create_junction_point ⟨[], 0, 0⟩ ag_w 1 1).accel.max_start_v2) := by
  have h : ¬ check_can_combine ⟨[], 0, 0⟩ ag_w := by
    simp [check_can_combine]
  exact ⟨h, (process_next_accel_reset_iff ⟨[], 0, 0⟩ ag_w 1 1 1).1 h⟩
